import Mathlib

/-!
# Verification of the ForwardAuth session gateway

A shallow embedding, in Lean 4, of the security-critical core of a Next.js
ForwardAuth checkpoint service (session validation, cookie management,
redirect-target validation, identity-header encoding), together with proofs
of its key properties.

Strings manipulated by the handlers are modelled as `List Char` (`Str`) so
that every definition is structurally recursive and kernel-evaluable.
JavaScript platform APIs that the source calls (`new URL`, `Buffer`
base64, `JSON.stringify`, `URLSearchParams` serialization) are modelled by
explicit Lean functions, documented at their definition sites.
-/

/-- Model of a JavaScript string: a list of (unicode scalar) characters. -/
abbrev Str := List Char

/-- JavaScript `a || b` on a nullable string: `null` and the empty string are
falsy, so both fall through to the default. -/
def jsOr (a : Option Str) (d : Str) : Str :=
  match a with
  | some s => if s.isEmpty then d else s
  | none => d

/-- JavaScript truthiness of a nullable string: present and non-empty. -/
def optTruthy (a : Option Str) : Bool :=
  match a with
  | some s => !s.isEmpty
  | none => false

/-- Split a character list at every occurrence of `sep`, keeping empty
segments — the behavior of JavaScript `String.prototype.split(sep)` for a
single-character separator. -/
def splitOnChar (sep : Char) : Str → List Str
  | [] => [[]]
  | c :: rest =>
    let r := splitOnChar sep rest
    if c = sep then [] :: r
    else match r with
      | [] => [[c]]
      | h :: t => (c :: h) :: t

/-- Strip leading and trailing whitespace — JavaScript `String.prototype.trim`. -/
def trimStr (s : Str) : Str :=
  ((s.dropWhile Char.isWhitespace).reverse.dropWhile Char.isWhitespace).reverse

/-- Lower-case every character. -/
def lowerStr (s : Str) : Str := s.map Char.toLower

/-! ## URL model

The source calls the WHATWG `URL` constructor and reads only `hostname`
and the origin.  We model the constructor for the common URL forms it is
given: `scheme://[userinfo@]host[:port][/path][?query][#fragment]` parses
with its (lower-cased) host; a string with a scheme but no `//` authority
parses with an empty hostname (opaque path, e.g. `mailto:`); anything
else fails to parse, which in the source surfaces as a thrown
`TypeError`. -/

/-- Consume a URL scheme (`alpha (alpha|digit|+|-|.)* ":"`), returning the
scheme and the remainder after the colon. -/
def takeSchemeAux (acc : Str) : Str → Option (Str × Str)
  | [] => none
  | c :: rest =>
    if c = ':' then some (acc.reverse, rest)
    else if c.isAlpha || c.isDigit || c = '+' || c = '-' || c = '.' then
      takeSchemeAux (c :: acc) rest
    else none

/-- Split off the leading scheme of a URL string, if any. -/
def takeScheme : Str → Option (Str × Str)
  | [] => none
  | c :: rest => if c.isAlpha then takeSchemeAux [c] rest else none

/-- The authority component: everything after `//` up to the first
`/`, `?` or `#`. -/
def authorityOf (afterSlashes : Str) : Str :=
  afterSlashes.takeWhile (fun c => c ≠ '/' && c ≠ '?' && c ≠ '#')

/-- Drop a `userinfo@` prefix from an authority (the part after the last
`@`), then drop a `:port` suffix, leaving the host. -/
def hostOfAuthority (authority : Str) : Str :=
  ((splitOnChar '@' authority).getLastD []).takeWhile (fun c => c ≠ ':')

/-- Modelled platform API: `new URL(url).hostname`.  `none` models the
constructor throwing on a malformed URL. -/
def hostnameOf (url : Str) : Option Str :=
  match takeScheme url with
  | none => none
  | some (_, rest) =>
    if rest.take 2 = ['/', '/'] then
      let host := hostOfAuthority (authorityOf (rest.drop 2))
      if host.isEmpty then none else some (lowerStr host)
    else some []

/-- Modelled platform API: the origin `scheme://host[:port]` of an absolute
URL with an authority, lower-cased; `none` models `new URL(path, base)`
throwing when `base` cannot serve as a base URL. -/
def originOf (url : Str) : Option Str :=
  match takeScheme url with
  | none => none
  | some (scheme, rest) =>
    if rest.take 2 = ['/', '/'] then
      let authority := authorityOf (rest.drop 2)
      let hostport := (splitOnChar '@' authority).getLastD []
      if (hostport.takeWhile (fun c => c ≠ ':')).isEmpty then none
      else some (lowerStr scheme ++ "://".toList ++ lowerStr hostport)
    else none

/-- Modelled platform API: `new URL(ref, base).toString()` for the reference
forms appearing in the source (an absolute URL, or a root-relative path
resolved against the base's origin). -/
def resolveUrl (ref base : Str) : Option Str :=
  if (hostnameOf ref).isSome then some ref
  else (originOf base).map (fun o =>
    o ++ (if "/".toList.isPrefixOf ref then ref else '/' :: ref))

/-! ## Percent / form encoders (modelled platform APIs) -/

/-- Upper-case hexadecimal digit. -/
def hexDigitChar (n : Nat) : Char :=
  if n < 10 then Char.ofNat (48 + n) else Char.ofNat (55 + n)

/-- UTF-8 encoding of a single character. -/
def utf8EncodeChar (c : Char) : List Nat :=
  let n := c.toNat
  if n < 0x80 then [n]
  else if n < 0x800 then [0xC0 + n / 64, 0x80 + n % 64]
  else if n < 0x10000 then [0xE0 + n / 4096, 0x80 + n / 64 % 64, 0x80 + n % 64]
  else [0xF0 + n / 262144, 0x80 + n / 4096 % 64, 0x80 + n / 64 % 64, 0x80 + n % 64]

/-- UTF-8 encoding of a string — the bytes of `Buffer.from(s, 'utf8')`. -/
def utf8Encode : Str → List Nat
  | [] => []
  | c :: rest => utf8EncodeChar c ++ utf8Encode rest

/-- One byte under `application/x-www-form-urlencoded` serialization:
alphanumerics and `*`, `-`, `.`, `_` stay, space becomes `+`, every other
byte becomes `%XX`. -/
def formEncodeByte (b : Nat) : Str :=
  if b = 0x20 then ['+']
  else if b = 0x2A || b = 0x2D || b = 0x2E || b = 0x5F ||
      (0x30 ≤ b && b ≤ 0x39) || (0x41 ≤ b && b ≤ 0x5A) || (0x61 ≤ b && b ≤ 0x7A) then
    [Char.ofNat b]
  else ['%', hexDigitChar (b / 16), hexDigitChar (b % 16)]

/-- Modelled platform API: the value serialization performed by
`URLSearchParams.set` + `URL.toString()`. -/
def formEncode (s : Str) : Str :=
  (utf8Encode s).foldr (fun b acc => formEncodeByte b ++ acc) []

/-- One byte under `encodeURIComponent`: unreserved characters stay,
every other byte becomes `%XX`. -/
def uriComponentByte (b : Nat) : Str :=
  if b = 0x21 || b = 0x27 || b = 0x28 || b = 0x29 || b = 0x2A || b = 0x2D ||
      b = 0x2E || b = 0x5F || b = 0x7E ||
      (0x30 ≤ b && b ≤ 0x39) || (0x41 ≤ b && b ≤ 0x5A) || (0x61 ≤ b && b ≤ 0x7A) then
    [Char.ofNat b]
  else ['%', hexDigitChar (b / 16), hexDigitChar (b % 16)]

/-- Modelled platform API: JavaScript `encodeURIComponent`. -/
def encodeURIComponent (s : Str) : Str :=
  (utf8Encode s).foldr (fun b acc => uriComponentByte b ++ acc) []

/-! ## Base64 (modelled platform API: `Buffer.toString('base64')`) -/

/-- The base64 alphabet. -/
def b64Chars : Str :=
  "ABCDEFGHIJKLMNOPQRSTUVWXYZabcdefghijklmnopqrstuvwxyz0123456789+/".toList

/-- The character for a 6-bit group. -/
def b64Enc (n : Nat) : Char := b64Chars.getD n '='

/-- Scan for the index of a character in the alphabet. -/
def b64InvAux (i : Nat) : Str → Char → Option Nat
  | [], _ => none
  | x :: xs, c => if x = c then some i else b64InvAux (i + 1) xs c

/-- The 6-bit value of a base64 character, if it is in the alphabet. -/
def b64Inv (c : Char) : Option Nat := b64InvAux 0 b64Chars c

/-- Standard base64 encoding with padding, three input bytes per four
output characters. -/
def b64EncodeBytes : List Nat → Str
  | [] => []
  | [a] => [b64Enc (a / 4), b64Enc (a % 4 * 16), '=', '=']
  | [a, b] => [b64Enc (a / 4), b64Enc (a % 4 * 16 + b / 16), b64Enc (b % 16 * 4), '=']
  | a :: b :: c :: rest =>
    [b64Enc (a / 4), b64Enc (a % 4 * 16 + b / 16), b64Enc (b % 16 * 4 + c / 64),
     b64Enc (c % 64)] ++ b64EncodeBytes rest

/-- Modelled from the spec: the base64 decoding the upstream application
performs as declared by `X-User-Name-Encoding` (the decoder itself is not
part of this repository).  Standard strict base64: four characters per
three bytes, padding only at the end. -/
def b64DecodeChars : Str → Option (List Nat)
  | [] => some []
  | c1 :: c2 :: c3 :: c4 :: rest =>
    (match b64Inv c1, b64Inv c2 with
     | some v1, some v2 =>
       if c3 = '=' then
         if c4 = '=' then
           if rest.isEmpty then some [v1 * 4 + v2 / 16] else none
         else none
       else
         match b64Inv c3 with
         | some v3 =>
           if c4 = '=' then
             if rest.isEmpty then some [v1 * 4 + v2 / 16, v2 % 16 * 16 + v3 / 4] else none
           else
             match b64Inv c4 with
             | some v4 =>
               (b64DecodeChars rest).map
                 (fun tl =>
                   (v1 * 4 + v2 / 16) :: (v2 % 16 * 16 + v3 / 4) :: (v3 % 4 * 64 + v4) :: tl)
             | none => none
         | none => none
     | _, _ => none)
  | _ => none

/-- Accumulate `k` UTF-8 continuation bytes onto a partial code point,
returning the completed value and the remaining bytes. -/
def utf8Cont : Nat → Nat → List Nat → Option (Nat × List Nat)
  | 0, acc, bs => some (acc, bs)
  | _ + 1, _, [] => none
  | k + 1, acc, b :: rest =>
    if 0x80 ≤ b && b < 0xC0 then utf8Cont k (acc * 64 + (b - 0x80)) rest else none

/-- Fuelled UTF-8 decoder; the fuel only bounds the recursion depth and
`utf8Decode` always supplies enough. -/
def utf8DecodeAux : Nat → List Nat → Option Str
  | _, [] => some []
  | 0, _ :: _ => none
  | fuel + 1, b :: rest =>
    if b < 0x80 then (utf8DecodeAux fuel rest).map (fun tl => Char.ofNat b :: tl)
    else if b < 0xC0 then none
    else if b < 0xF8 then
      let k := if b < 0xE0 then 1 else if b < 0xF0 then 2 else 3
      let lead := if b < 0xE0 then b - 0xC0 else if b < 0xF0 then b - 0xE0 else b - 0xF0
      (utf8Cont k lead rest).bind
        (fun p => (utf8DecodeAux fuel p.2).map (fun tl => Char.ofNat p.1 :: tl))
    else none

/-- Modelled from the spec: UTF-8 decoding of a byte sequence back to a
string, as the upstream application reconstructs the display name (the
decoder is not part of this repository). -/
def utf8Decode (bs : List Nat) : Option Str := utf8DecodeAux bs.length bs

/-! ## Environment and RedirectPolicy -/

/-- The process environment variables read by the handlers. -/
structure Env where
  /-- `NODE_ENV === 'production'`. -/
  nodeEnvProduction : Bool
  /-- `NEXT_PUBLIC_SUPABASE_URL`. -/
  supabaseUrl : Str
  /-- `COOKIE_DOMAIN` (optional). -/
  cookieDomain : Option Str
  /-- `COOKIE_SECURE` (optional). -/
  cookieSecure : Option Str
  /-- `NEXT_APP_URL` (optional). -/
  appUrl : Option Str
  /-- `ALLOWED_DOMAINS` (optional, comma-separated). -/
  allowedDomains : Option Str
deriving DecidableEq

/-- The configured allow-list: `ALLOWED_DOMAINS || 'localhost'`, split on
commas, each entry trimmed — from `isValidRedirectUrl` in `lib/auth.ts`. -/
def trimmedDomains (env : Env) : List Str :=
  (splitOnChar ',' (jsOr env.allowedDomains "localhost".toList)).map trimStr

/-- One allow-list entry against a hostname — the body of the `some`
callback in `isValidRedirectUrl`: a wildcard entry `*.base` matches `base`
itself or any `.base` suffix; a plain entry matches itself or any
`.entry` suffix. -/
def domainMatches (hostname domain : Str) : Bool :=
  if "*.".toList.isPrefixOf domain then
    let baseDomain := domain.drop 2
    hostname = baseDomain || ('.' :: baseDomain).isSuffixOf hostname
  else
    hostname = domain || ('.' :: domain).isSuffixOf hostname

/-- `isValidRedirectUrl(url)` from `lib/auth.ts`: parse the URL (a parse
failure is caught and rejected) and test its hostname against every
configured allow-list entry. -/
def isValidRedirectUrl (env : Env) (url : Str) : Bool :=
  match hostnameOf url with
  | none => false
  | some h => (trimmedDomains env).any (domainMatches h)

/-! ## Data model: identity, session, cookie directives, responses -/

/-- The slice of the identity-provider user object the handlers read:
`user.id`, `user.email` and `user.user_metadata?.name`. -/
structure User where
  id : Str
  email : Option Str
  name : Option Str
deriving DecidableEq

/-- A provider session: the fields the cookie serializer and handlers read. -/
structure Session where
  access_token : Str
  refresh_token : Str
  expires_in : Nat
  expires_at : Nat
  token_type : Str
  user : User
deriving DecidableEq

/-- A `Set-Cookie` directive as produced by `response.cookies.set`; absent
options keep their defaults. -/
structure SetCookie where
  name : Str
  value : Str
  httpOnly : Bool := false
  secure : Bool := false
  sameSite : Option Str := none
  maxAge : Option Nat := none
  path : Option Str := none
  domain : Option Str := none
deriving DecidableEq

/-- An HTTP response as observed by the proxy/browser: status, `Location`,
other headers (in the order they are set), and cookie directives. -/
structure Resp where
  status : Nat
  location : Option Str := none
  headers : List (Str × Str) := []
  cookies : List SetCookie := []
deriving DecidableEq

/-- The `Location` header of a non-thrown response, if any. -/
def locOf (r : Except Str Resp) : Option Str :=
  match r with
  | .ok resp => resp.location
  | .error _ => none

/-! ## JSON serialization (modelled platform API: `JSON.stringify`) -/

/-- Concatenation of `f` over a list — `flatMap` by structural recursion. -/
def concatMapStr (f : Char → Str) : Str → Str
  | [] => []
  | c :: rest => f c ++ concatMapStr f rest

/-- `JSON.stringify`'s escaping of one string character: `"` and `\`
are backslash-escaped, the control characters 8, 9, 10, 12, 13 use their
short escapes, other control characters use `\u00XX`, and everything else
is emitted verbatim. -/
def jsonEscapeChar (c : Char) : Str :=
  if c = '"' then ['\\', '"']
  else if c = '\\' then ['\\', '\\']
  else if c.toNat = 8 then ['\\', 'b']
  else if c.toNat = 9 then ['\\', 't']
  else if c.toNat = 10 then ['\\', 'n']
  else if c.toNat = 12 then ['\\', 'f']
  else if c.toNat = 13 then ['\\', 'r']
  else if c.toNat < 32 then
    ['\\', 'u', '0', '0', hexDigitChar (c.toNat / 16), hexDigitChar (c.toNat % 16)]
  else [c]

/-- Escape a whole string for inclusion in a JSON string literal. -/
def jsonEscape (s : Str) : Str := concatMapStr jsonEscapeChar s

/-- Decimal digit character. -/
def digitChar (n : Nat) : Char := Char.ofNat (48 + n)

/-- Fuelled most-significant-first decimal digits; the fuel only bounds the
recursion depth and `natDigits` always supplies enough. -/
def natDigitsAux : Nat → Nat → Str
  | 0, _ => []
  | fuel + 1, n =>
    if n < 10 then [digitChar n]
    else natDigitsAux fuel (n / 10) ++ [digitChar (n % 10)]

/-- The decimal representation of a natural number — how `JSON.stringify`
prints the integral `expires_in` / `expires_at` fields. -/
def natDigits (n : Nat) : Str := natDigitsAux (n + 1) n

/-- JSON for the user object (the fields this model carries); absent
optional fields are omitted, as `JSON.stringify` omits `undefined`. -/
def userJson (u : User) : Str :=
  "\x7b\"id\":\"".toList ++ jsonEscape u.id ++ "\"".toList ++
  (match u.email with
   | some e => ",\"email\":\"".toList ++ jsonEscape e ++ "\"".toList
   | none => []) ++
  (match u.name with
   | some n => ",\"user_metadata\":\x7b\"name\":\"".toList ++ jsonEscape n ++ "\"\x7d".toList
   | none => ",\"user_metadata\":\x7b\x7d".toList) ++
  "\x7d".toList

/-- `JSON.stringify({access_token, refresh_token, expires_in, expires_at,
token_type, user})` — the auth-cookie value built in `setAuthCookie`. -/
def sessionJson (s : Session) : Str :=
  "\x7b\"access_token\":\"".toList ++ jsonEscape s.access_token ++
  "\",\"refresh_token\":\"".toList ++ jsonEscape s.refresh_token ++
  "\",\"expires_in\":".toList ++ natDigits s.expires_in ++
  ",\"expires_at\":".toList ++ natDigits s.expires_at ++
  ",\"token_type\":\"".toList ++ jsonEscape s.token_type ++
  "\",\"user\":".toList ++ userJson s.user ++
  "\x7d".toList

/-! ## CookieManager -/

/-- `new URL(supabaseUrl).hostname.split('.')[0]` — the project ref that
keys the cookie name.  A malformed `NEXT_PUBLIC_SUPABASE_URL` (where the
source would throw) is modelled as the empty ref. -/
def projectRef (env : Env) : Str :=
  (splitOnChar '.' ((hostnameOf env.supabaseUrl).getD [])).headD []

/-- The auth cookie name `sb-<project-ref>-auth-token`. -/
def authCookieName (env : Env) : Str :=
  "sb-".toList ++ projectRef env ++ "-auth-token".toList

/-- The directive written by `setAuthCookie`: the session serialized as
JSON under the derived name, readable by the browser client
(`httpOnly: false`), `Secure` in production, `SameSite=Lax`,
`Max-Age = expires_in`, `Path=/`, `Domain = COOKIE_DOMAIN || '.localhost'`. -/
def setAuthCookieDirective (env : Env) (s : Session) : SetCookie :=
  { name := authCookieName env
    value := sessionJson s
    httpOnly := false
    secure := env.nodeEnvProduction
    sameSite := some "lax".toList
    maxAge := some s.expires_in
    path := some "/".toList
    domain := some (jsOr env.cookieDomain ".localhost".toList) }

/-- The directive written by `clearAuthCookie`: the same name, empty value,
`Max-Age: 0`, and the same `Path` and `Domain` as the issuing directive. -/
def clearAuthCookieDirective (env : Env) : SetCookie :=
  { name := authCookieName env
    value := []
    maxAge := some 0
    path := some "/".toList
    domain := some (jsOr env.cookieDomain ".localhost".toList) }

/-- `setAuthCookie(response, session)`: append the issuing directive to the
response's cookies. -/
def setAuthCookie (env : Env) (s : Session) (r : Resp) : Resp :=
  { r with cookies := r.cookies ++ [setAuthCookieDirective env s] }

/-- `clearAuthCookie(response)`: append the clearing directive to the
response's cookies. -/
def clearAuthCookie (env : Env) (r : Resp) : Resp :=
  { r with cookies := r.cookies ++ [clearAuthCookieDirective env] }

/-! ## Parsing the auth-cookie value

Modelled from the spec: the cookie wire format is
`value = JSON object {access_token, refresh_token, expires_in, expires_at,
token_type, user}`; a client parsing the cookie value recovers the
session fields.  The parser below reads exactly that object shape. -/

/-- The numeric value of a hexadecimal digit character. -/
def hexVal (c : Char) : Option Nat :=
  if '0' ≤ c && c ≤ '9' then some (c.toNat - 48)
  else if 'A' ≤ c && c ≤ 'F' then some (c.toNat - 55)
  else if 'a' ≤ c && c ≤ 'f' then some (c.toNat - 87)
  else none

/-- Prepend a character to the string component of a parse result. -/
def mapConsC (c : Char) (o : Option (Str × Str)) : Option (Str × Str) :=
  o.map (fun p => (c :: p.1, p.2))

/-- Decode the four hex digits of a `\uXXXX` escape. -/
def unescapeHex : Str → Option (Char × Str)
  | h1 :: h2 :: h3 :: h4 :: r2 =>
    match hexVal h1, hexVal h2, hexVal h3, hexVal h4 with
    | some v1, some v2, some v3, some v4 =>
      some (Char.ofNat (((v1 * 16 + v2) * 16 + v3) * 16 + v4), r2)
    | _, _, _, _ => none
  | _ => none

/-- Decode one JSON escape sequence (after the backslash), returning the
decoded character and the unconsumed tail. -/
def unescapeOne : Str → Option (Char × Str)
  | [] => none
  | e :: r =>
    if e = '"' then some ('"', r)
    else if e = '\\' then some ('\\', r)
    else if e = 'b' then some (Char.ofNat 8, r)
    else if e = 't' then some (Char.ofNat 9, r)
    else if e = 'n' then some (Char.ofNat 10, r)
    else if e = 'f' then some (Char.ofNat 12, r)
    else if e = 'r' then some (Char.ofNat 13, r)
    else if e = 'u' then unescapeHex r
    else none

/-- Fuelled parser for the body of a JSON string literal (after the
opening quote), up to and including its closing quote, undoing JSON
escapes; the fuel only bounds the recursion depth. -/
def parseJsonStringBodyAux : Nat → Str → Option (Str × Str)
  | _, [] => none
  | 0, _ :: _ => none
  | fuel + 1, c :: rest =>
    if c = '"' then some ([], rest)
    else if c = '\\' then
      (unescapeOne rest).bind (fun p => mapConsC p.1 (parseJsonStringBodyAux fuel p.2))
    else mapConsC c (parseJsonStringBodyAux fuel rest)

/-- Parse the body of a JSON string literal, returning the parsed string
and the unconsumed tail. -/
def parseJsonStringBody (l : Str) : Option (Str × Str) :=
  parseJsonStringBodyAux l.length l

/-- Accumulate a run of decimal digits. -/
def parseNatAux (acc : Nat) : Str → Nat × Str
  | [] => (acc, [])
  | c :: rest =>
    if c.isDigit then parseNatAux (acc * 10 + (c.toNat - 48)) rest
    else (acc, c :: rest)

/-- Parse a non-empty run of decimal digits as a natural number. -/
def parseNat : Str → Option (Nat × Str)
  | [] => none
  | c :: rest =>
    if c.isDigit then some (parseNatAux (c.toNat - 48) rest) else none

/-- A character list whose head, if any, is not a decimal digit — the
stopping condition for the number parser. -/
def nonDigitHead : Str → Prop
  | [] => True
  | c :: _ => c.isDigit = false

/-- Consume an expected literal prefix. -/
def takeLit : Str → Str → Option Str
  | [], l => some l
  | _, [] => none
  | p :: ps, c :: cs => if c = p then takeLit ps cs else none

/-- Parse the auth-cookie JSON value, recovering the access token, the
refresh token, and the two expiry fields; the trailing `user` object is
checked for the closing brace but not deconstructed. -/
def parseAuthCookieValue (l : Str) : Option (Str × Str × Nat × Nat) := do
  let r1 ← takeLit "\x7b\"access_token\":\"".toList l
  let (accessTok, r2) ← parseJsonStringBody r1
  let r3 ← takeLit ",\"refresh_token\":\"".toList r2
  let (refreshTok, r4) ← parseJsonStringBody r3
  let r5 ← takeLit ",\"expires_in\":".toList r4
  let (ei, r6) ← parseNat r5
  let r7 ← takeLit ",\"expires_at\":".toList r6
  let (ea, r8) ← parseNat r7
  let r9 ← takeLit ",\"token_type\":\"".toList r8
  let (_, r10) ← parseJsonStringBody r9
  let r11 ← takeLit ",\"user\":".toList r10
  match r11.reverse with
  | '\x7d' :: _ => some (accessTok, refreshTok, ei, ea)
  | _ => none

/-! ## SessionGateway

Identity-provider calls return `{data, error}` or throw; a call is
modelled by an `Except` value: `.error e` is a thrown exception, `.ok`
carries the returned session/error pair. -/

/-- The `{data: {session}, error}` payload returned (not thrown) by
`supabase.auth.getSession` / `refreshSession` / `exchangeCodeForSession`. -/
structure ProviderData where
  session : Option Session
  error : Option Str
deriving DecidableEq

/-- `validateSession` from `lib/auth.ts`: a thrown exception is caught and
yields `null`; a returned provider error or missing session yields `null`;
otherwise the session (with its user) is returned. -/
def validateSession (call : Except Str ProviderData) : Option Session :=
  match call with
  | .error _ => none
  | .ok d =>
    match d.error with
    | some _ => none
    | none => d.session

/-- `refreshSession` from `lib/auth.ts`: same failure handling as
`validateSession`, returning the renewed session on success. -/
def refreshSession (call : Except Str ProviderData) : Option Session :=
  match call with
  | .error _ => none
  | .ok d =>
    match d.error with
    | some _ => none
    | none => d.session

/-- `generateLoginUrl` from `lib/auth.ts`:
`new URL('/login', NEXT_APP_URL || 'http://localhost:3000')` with the
`redirect` query parameter set to the original URL; `none` models the URL
constructor throwing on a malformed configured base. -/
def generateLoginUrl (env : Env) (originalUrl : Str) : Option Str :=
  (originOf (jsOr env.appUrl "http://localhost:3000".toList)).map
    (fun o => o ++ "/login?redirect=".toList ++ formEncode originalUrl)

/-! ## ForwardAuthHandler -/

/-- The parts of the inbound ForwardAuth request the handler reads. -/
structure ForwardReq where
  /-- `request.url`. -/
  url : Str
  /-- `x-forwarded-host` header. -/
  xForwardedHost : Option Str
  /-- `x-forwarded-proto` header. -/
  xForwardedProto : Option Str
  /-- `x-forwarded-uri` header. -/
  xForwardedUri : Option Str
  /-- The raw `cookie` header. -/
  cookieHeader : Option Str
  /-- `request.cookies.get('sb-refresh-token')?.value`. -/
  refreshTokenCookie : Option Str
deriving DecidableEq

/-- The guarded original URL: reconstructed from the forwarding headers
when `x-forwarded-host` is present (and truthy), else the request's own
URL. -/
def originalUrlOf (req : ForwardReq) : Str :=
  match req.xForwardedHost with
  | some h =>
    if h.isEmpty then req.url
    else jsOr req.xForwardedProto "https".toList ++ "://".toList ++ h ++
      jsOr req.xForwardedUri "/".toList
  | none => req.url

/-- The user name forwarded upstream: `user.user_metadata?.name || ''`. -/
def userNameOf (u : User) : Str := jsOr u.name []

/-- Base64-encoded `X-User-Name` value:
`userName ? Buffer.from(userName, 'utf8').toString('base64') : ''`. -/
def encodedUserName (u : User) : Str :=
  let n := userNameOf u
  if n.isEmpty then [] else b64EncodeBytes (utf8Encode n)

/-- The identity headers set on an authenticated response, in source
order: id, email (or empty), base64-encoded display name, and the
encoding marker. -/
def authHeaders (u : User) : List (Str × Str) :=
  [("X-User-Id".toList, u.id),
   ("X-User-Email".toList, jsOr u.email []),
   ("X-User-Name".toList, encodedUserName u),
   ("X-User-Name-Encoding".toList, "base64".toList)]

/-- Pass-through of the original request's `cookie` header, when truthy. -/
def cookiePassthrough (req : ForwardReq) : List (Str × Str) :=
  match req.cookieHeader with
  | some ch => if ch.isEmpty then [] else [("Cookie".toList, ch)]
  | none => []

/-- The short-lived access-token cookie set after a successful refresh. -/
def accessTokenCookie (env : Env) (ns : Session) : SetCookie :=
  { name := "sb-access-token".toList
    value := ns.access_token
    httpOnly := true
    secure := env.cookieSecure = some "true".toList
    sameSite := some "lax".toList
    maxAge := some ns.expires_in
    domain := some (jsOr env.cookieDomain ".localhost".toList) }

/-- The body of the ForwardAuth `GET` handler's `try` block, given the
outcomes of the provider's get-session and refresh calls.  `.error`
models a thrown exception reaching the outer `catch`. -/
def forwardAuthTry (env : Env) (req : ForwardReq)
    (getRes refreshRes : Except Str ProviderData) : Except Str Resp :=
  let originalUrl := originalUrlOf req
  match validateSession getRes with
  | some s =>
    .ok { status := 200, headers := authHeaders s.user ++ cookiePassthrough req }
  | none =>
    let refreshed : Option Resp :=
      match req.refreshTokenCookie with
      | some rt =>
        if rt.isEmpty then none
        else
          match refreshSession refreshRes with
          | some ns =>
            some { status := 200
                   headers := authHeaders ns.user ++ cookiePassthrough req
                   cookies := [accessTokenCookie env ns] }
          | none => none
      | none => none
    match refreshed with
    | some r => .ok r
    | none =>
      match generateLoginUrl env originalUrl with
      | some u => .ok { status := 302, location := some u }
      | none => .error "TypeError".toList

/-- The best-effort original URL reconstructed inside the `catch` block:
forwarding headers when present, else `/`. -/
def catchOriginalUrl (req : ForwardReq) : Str :=
  match req.xForwardedHost with
  | some h =>
    if h.isEmpty then "/".toList
    else jsOr req.xForwardedProto "https".toList ++ "://".toList ++ h ++
      jsOr req.xForwardedUri "/".toList
  | none => "/".toList

/-- The ForwardAuth `catch` block: a `302` deny toward the login page. -/
def forwardAuthCatch (env : Env) (req : ForwardReq) : Except Str Resp :=
  match generateLoginUrl env (catchOriginalUrl req) with
  | some u => .ok { status := 302, location := some u }
  | none => .error "TypeError".toList

/-- The whole ForwardAuth `GET` handler: the `try` body with any thrown
error diverted to the `catch` block. -/
def forwardAuthGET (env : Env) (req : ForwardReq)
    (getRes refreshRes : Except Str ProviderData) : Except Str Resp :=
  match forwardAuthTry env req getRes refreshRes with
  | .ok r => .ok r
  | .error _ => forwardAuthCatch env req

/-- The `HEAD` liveness entry point: unconditionally `200`. -/
def forwardAuthHEAD : Resp := { status := 200 }

/-! ## CallbackHandler -/

/-- The query parameters of the callback request. -/
structure CallbackReq where
  url : Str
  codeParam : Option Str
  redirectParam : Option Str
  stateParam : Option Str
deriving DecidableEq

/-- `searchParams.get('redirect') || searchParams.get('state')` — the
caller-requested post-login target, with `state` as fallback. -/
def redirectToOf (req : CallbackReq) : Option Str :=
  match req.redirectParam with
  | some s => if s.isEmpty then req.stateParam else some s
  | none => req.stateParam

/-- A `NextResponse.redirect` (default status 307) to a resolved URL;
`none` for the resolved URL models the `URL` constructor throwing. -/
def redirectResp (target : Option Str) : Except Str Resp :=
  match target with
  | some u => .ok { status := 307, location := some u }
  | none => .error "TypeError".toList

/-- The final in-app target the callback chooses: the requested target
when truthy and allowed by `isValidRedirectUrl`, else `/dashboard`. -/
def callbackTarget (env : Env) (req : CallbackReq) : Str :=
  match redirectToOf req with
  | some r => if !r.isEmpty && isValidRedirectUrl env r then r else "/dashboard".toList
  | none => "/dashboard".toList

/-- The body of the callback `GET` handler's `try` block, given the
outcome of the code-exchange call. -/
def callbackTry (env : Env) (req : CallbackReq)
    (exchange : Except Str ProviderData) : Except Str Resp :=
  let baseUrl := jsOr env.appUrl "http://localhost:3000".toList
  if !optTruthy req.codeParam then
    redirectResp ((originOf baseUrl).map (fun o => o ++ "/login?error=no_code".toList))
  else
    match exchange with
    | .error e => .error e
    | .ok d =>
      match d.error with
      | some msg =>
        redirectResp ((originOf baseUrl).map
          (fun o => o ++ "/login?error=".toList ++ encodeURIComponent msg))
      | none =>
        match d.session with
        | none =>
          redirectResp ((originOf baseUrl).map (fun o => o ++ "/login?error=no_session".toList))
        | some s =>
          match resolveUrl (callbackTarget env req) baseUrl with
          | some u => .ok (setAuthCookie env s { status := 307, location := some u })
          | none => .error "TypeError".toList

/-- The whole callback `GET` handler: the `try` body with any thrown error
diverted to the `catch` block's `unexpected_error` redirect. -/
def callbackGET (env : Env) (req : CallbackReq)
    (exchange : Except Str ProviderData) : Except Str Resp :=
  match callbackTry env req exchange with
  | .ok r => .ok r
  | .error _ =>
    redirectResp ((originOf (jsOr env.appUrl "http://localhost:3000".toList)).map
      (fun o => o ++ "/login?error=unexpected_error".toList))

/-! ## LogoutHandler -/

/-- The parts of the logout request the handler reads. -/
structure LogoutReq where
  url : Str
  redirectParam : Option Str
deriving DecidableEq

/-- The body of the logout handler's `try` block: `signOut` errors are
only logged; the response redirects to the requested target (default
`/login`) and always clears the auth cookie. -/
def logoutTry (env : Env) (req : LogoutReq)
    (signOut : Except Str (Option Str)) : Except Str Resp :=
  match signOut with
  | .error e => .error e
  | .ok _ =>
    let redirectTo := jsOr req.redirectParam "/login".toList
    match resolveUrl redirectTo req.url with
    | some u => .ok (clearAuthCookie env { status := 307, location := some u })
    | none => .error "TypeError".toList

/-- The whole logout handler: the `try` body with any thrown error
diverted to the `catch` block, which also clears the auth cookie. -/
def logoutPOST (env : Env) (req : LogoutReq)
    (signOut : Except Str (Option Str)) : Except Str Resp :=
  match logoutTry env req signOut with
  | .ok r => .ok r
  | .error _ =>
    match resolveUrl "/login".toList req.url with
    | some u => .ok (clearAuthCookie env { status := 307, location := some u })
    | none => .error "TypeError".toList

/-! ## Specification-side predicates

`specExactOrWildcard` transcribes the specification claim for the
redirect policy exactly as worded (exact equality, with suffix matching
only for wildcard entries); `amendedAllowed` is the corrected condition
(suffix matching for every entry).  Both are compared against
`isValidRedirectUrl`, the embedding of the source. -/

/-- The allow-condition as the specification claim words it: the hostname
exactly equals an entry, or, for a wildcard entry `*.base`, equals `base`
or ends with `.base`. -/
def specExactOrWildcard (domains : List Str) (host : Str) : Bool :=
  domains.any (fun d =>
    host = d ||
    ("*.".toList.isPrefixOf d &&
      (host = d.drop 2 || ('.' :: d.drop 2).isSuffixOf host)))

/-- The corrected allow-condition: for a wildcard entry `*.base` the
hostname equals `base` or ends with `.base`; for a plain entry it equals
the entry or ends with `.entry` (subdomains match plain entries too). -/
def amendedAllowed (domains : List Str) (host : Str) : Prop :=
  ∃ d ∈ domains,
    if "*.".toList.isPrefixOf d then
      host = d.drop 2 ∨ ('.' :: d.drop 2).isSuffixOf host = true
    else
      host = d ∨ ('.' :: d).isSuffixOf host = true

/-! ## Concrete test fixtures -/

/-- A configuration with one plain allow-list entry. -/
def envA : Env where
  nodeEnvProduction := false
  supabaseUrl := "https://proj.supabase.co".toList
  cookieDomain := none
  cookieSecure := none
  appUrl := none
  allowedDomains := some "mydomain.com".toList

/-- A sample identity with a non-ASCII display name. -/
def userA : User where
  id := "user-1".toList
  email := some "zhang@example.com".toList
  name := some "张三".toList

/-- A sample session. -/
def sessionA : Session where
  access_token := "at-1".toList
  refresh_token := "rt-1".toList
  expires_in := 3600
  expires_at := 1700000000
  token_type := "bearer".toList
  user := userA

/-- A ForwardAuth request with forwarding headers and no credentials. -/
def fwdReqA : ForwardReq where
  url := "http://localhost:3000/api/auth".toList
  xForwardedHost := some "app.mydomain.com".toList
  xForwardedProto := some "https".toList
  xForwardedUri := some "/panel".toList
  cookieHeader := none
  refreshTokenCookie := none

/-- The response the ForwardAuth `catch` block produces for `fwdReqA`
under `envA`. -/
def catchRespA : Resp where
  status := 302
  location := generateLoginUrl envA (catchOriginalUrl fwdReqA)

/-- A callback request with no `redirect` parameter and an allow-listed
`state` parameter. -/
def cbReqState : CallbackReq where
  url := "http://localhost:3000/api/auth/callback?code=abc123".toList
  codeParam := some "abc123".toList
  redirectParam := none
  stateParam := some "https://app.mydomain.com/home".toList

/-- A callback request whose `redirect` parameter points at a host that is
not allow-listed. -/
def cbReqEvil : CallbackReq where
  url := "http://localhost:3000/api/auth/callback?code=abc123".toList
  codeParam := some "abc123".toList
  redirectParam := some "https://evil.com".toList
  stateParam := none

/-- A logout request with no redirect parameter. -/
def logoutReqA : LogoutReq where
  url := "http://localhost:3000/api/auth/logout".toList
  redirectParam := none

/-- The response the logout `catch` block produces for `logoutReqA` under
`envA`. -/
def logoutRespA : Resp :=
  clearAuthCookie envA { status := 307, location := some "http://localhost:3000/login".toList }

/-! ## Base64 and UTF-8 round-trip lemmas -/

/-- Decoding inverts the alphabet map on every 6-bit value. -/
theorem b64Inv_b64Enc : ∀ v, v < 64 → b64Inv (b64Enc v) = some v := by decide

/-- No alphabet character is the padding character. -/
theorem b64Enc_ne_pad : ∀ v, v < 64 → b64Enc v ≠ '=' := by decide

/-- Base64 round-trip: decoding the encoding of any byte sequence
returns the original bytes. -/
theorem b64_decode_encode : ∀ (bs : List Nat), (∀ b ∈ bs, b < 256) →
    b64DecodeChars (b64EncodeBytes bs) = some bs
  | [], _ => rfl
  | [a], h => by
    have ha : a < 256 := h a (by simp)
    simp only [b64EncodeBytes, b64DecodeChars,
      b64Inv_b64Enc (a / 4) (by omega), b64Inv_b64Enc (a % 4 * 16) (by omega)]
    simp
    omega
  | [a, b], h => by
    have ha : a < 256 := h a (by simp)
    have hb : b < 256 := h b (by simp)
    simp only [b64EncodeBytes, b64DecodeChars,
      b64Inv_b64Enc (a / 4) (by omega), b64Inv_b64Enc (a % 4 * 16 + b / 16) (by omega),
      b64Inv_b64Enc (b % 16 * 4) (by omega)]
    rw [if_neg (b64Enc_ne_pad (b % 16 * 4) (by omega))]
    simp
    omega
  | a :: b :: c :: rest, h => by
    have ha : a < 256 := h a (by simp)
    have hb : b < 256 := h b (by simp)
    have hc : c < 256 := h c (by simp)
    have IH := b64_decode_encode rest (fun x hx => h x (by simp [hx]))
    simp only [b64EncodeBytes, List.cons_append, List.nil_append, b64DecodeChars,
      b64Inv_b64Enc (a / 4) (by omega), b64Inv_b64Enc (a % 4 * 16 + b / 16) (by omega),
      b64Inv_b64Enc (b % 16 * 4 + c / 64) (by omega), b64Inv_b64Enc (c % 64) (by omega)]
    rw [if_neg (b64Enc_ne_pad (b % 16 * 4 + c / 64) (by omega)),
      if_neg (b64Enc_ne_pad (c % 64) (by omega))]
    simp only [List.append_eq, List.nil_append, IH, Option.map_some']
    simp
    refine ⟨by omega, by omega, by omega⟩

/-- Every character's code point is below `0x110000`. -/
theorem char_toNat_lt (c : Char) : c.toNat < 1114112 := by
  have h : c.toNat = c.val.toNat := rfl
  rcases c.valid with hv | hv
  · omega
  · omega

/-- Every byte produced by the UTF-8 encoder fits in a byte. -/
theorem utf8EncodeChar_lt (c : Char) : ∀ x ∈ utf8EncodeChar c, x < 256 := by
  have hc := char_toNat_lt c
  intro x hx
  simp only [utf8EncodeChar] at hx
  split_ifs at hx <;> simp at hx <;> omega

/-- Every byte of an encoded string fits in a byte. -/
theorem utf8Encode_lt : ∀ (s : Str), ∀ x ∈ utf8Encode s, x < 256
  | [], _, hx => by simp [utf8Encode] at hx
  | c :: rest, x, hx => by
    simp only [utf8Encode, List.mem_append] at hx
    rcases hx with hx | hx
    · exact utf8EncodeChar_lt c x hx
    · exact utf8Encode_lt rest x hx

/-- Decoding with enough fuel inverts the encoder. -/
theorem utf8DecodeAux_encode : ∀ (s : Str) (fuel : Nat),
    (utf8Encode s).length ≤ fuel → utf8DecodeAux fuel (utf8Encode s) = some s
  | [], fuel, _ => by
    show utf8DecodeAux fuel [] = some []
    cases fuel <;> rfl
  | c :: rest, fuel, hf => by
    have hc := char_toNat_lt c
    have hlen1 : 1 ≤ (utf8EncodeChar c).length := by
      simp only [utf8EncodeChar]
      split_ifs <;> simp
    have hlen : (utf8EncodeChar c).length + (utf8Encode rest).length ≤ fuel := by
      simpa [utf8Encode, List.length_append] using hf
    obtain ⟨f, rfl⟩ : ∃ f, fuel = f + 1 := by
      cases fuel with
      | zero => exact absurd hlen (by omega)
      | succ f => exact ⟨f, rfl⟩
    have IH := utf8DecodeAux_encode rest f (by omega)
    show utf8DecodeAux (f + 1) (utf8EncodeChar c ++ utf8Encode rest) = some (c :: rest)
    simp only [utf8EncodeChar]
    by_cases h1 : c.toNat < 0x80
    · rw [if_pos h1]
      show utf8DecodeAux (f + 1) (c.toNat :: utf8Encode rest) = some (c :: rest)
      rw [utf8DecodeAux, if_pos h1, IH, Option.map_some', Char.ofNat_toNat]
    · rw [if_neg h1]
      by_cases h2 : c.toNat < 0x800
      · rw [if_pos h2]
        show utf8DecodeAux (f + 1)
          ((0xC0 + c.toNat / 64) :: (0x80 + c.toNat % 64) :: utf8Encode rest) = some (c :: rest)
        rw [utf8DecodeAux]
        rw [if_neg (by omega), if_neg (by omega), if_pos (by omega)]
        simp only [if_pos (show 0xC0 + c.toNat / 64 < 0xE0 by omega)]
        rw [utf8Cont, if_pos (by simp only [Bool.and_eq_true, decide_eq_true_eq]; omega)]
        rw [utf8Cont]
        simp only [Option.some_bind, IH, Option.map_some']
        have he : (0xC0 + c.toNat / 64 - 0xC0) * 64 + (0x80 + c.toNat % 64 - 0x80) =
            c.toNat := by omega
        rw [he, Char.ofNat_toNat]
      · rw [if_neg h2]
        by_cases h3 : c.toNat < 0x10000
        · rw [if_pos h3]
          show utf8DecodeAux (f + 1) ((0xE0 + c.toNat / 4096) :: (0x80 + c.toNat / 64 % 64) ::
            (0x80 + c.toNat % 64) :: utf8Encode rest) = some (c :: rest)
          rw [utf8DecodeAux]
          rw [if_neg (by omega), if_neg (by omega), if_pos (by omega)]
          simp only [if_neg (show ¬ 0xE0 + c.toNat / 4096 < 0xE0 by omega),
            if_pos (show 0xE0 + c.toNat / 4096 < 0xF0 by omega)]
          rw [utf8Cont, if_pos (by simp only [Bool.and_eq_true, decide_eq_true_eq]; omega)]
          rw [utf8Cont, if_pos (by simp only [Bool.and_eq_true, decide_eq_true_eq]; omega)]
          rw [utf8Cont]
          simp only [Option.some_bind, IH, Option.map_some']
          have he : ((0xE0 + c.toNat / 4096 - 0xE0) * 64 + (0x80 + c.toNat / 64 % 64 - 0x80)) * 64 +
              (0x80 + c.toNat % 64 - 0x80) = c.toNat := by omega
          rw [he, Char.ofNat_toNat]
        · rw [if_neg h3]
          show utf8DecodeAux (f + 1) ((0xF0 + c.toNat / 262144) :: (0x80 + c.toNat / 4096 % 64) ::
            (0x80 + c.toNat / 64 % 64) :: (0x80 + c.toNat % 64) :: utf8Encode rest) =
            some (c :: rest)
          rw [utf8DecodeAux]
          rw [if_neg (by omega), if_neg (by omega), if_pos (by omega)]
          simp only [if_neg (show ¬ 0xF0 + c.toNat / 262144 < 0xE0 by omega),
            if_neg (show ¬ 0xF0 + c.toNat / 262144 < 0xF0 by omega)]
          rw [utf8Cont, if_pos (by simp only [Bool.and_eq_true, decide_eq_true_eq]; omega)]
          rw [utf8Cont, if_pos (by simp only [Bool.and_eq_true, decide_eq_true_eq]; omega)]
          rw [utf8Cont, if_pos (by simp only [Bool.and_eq_true, decide_eq_true_eq]; omega)]
          rw [utf8Cont]
          simp only [Option.some_bind, IH, Option.map_some']
          have he : (((0xF0 + c.toNat / 262144 - 0xF0) * 64 + (0x80 + c.toNat / 4096 % 64 - 0x80)) *
              64 + (0x80 + c.toNat / 64 % 64 - 0x80)) * 64 + (0x80 + c.toNat % 64 - 0x80) =
              c.toNat := by omega
          rw [he, Char.ofNat_toNat]

/-- UTF-8 round-trip: decoding the encoding of any string returns the
original string. -/
theorem utf8_decode_encode (s : Str) : utf8Decode (utf8Encode s) = some s :=
  utf8DecodeAux_encode s (utf8Encode s).length le_rfl

/-! ## Decimal and JSON-string round-trip lemmas -/

/-- Decimal digit characters are digits. -/
theorem digitChar_isDigit : ∀ d, d < 10 → (digitChar d).isDigit = true := by decide

/-- The numeric value of a decimal digit character. -/
theorem digitChar_sub : ∀ d, d < 10 → (digitChar d).toNat - 48 = d := by decide

/-- Every character the digit printer emits is a digit. -/
theorem natDigitsAux_digits : ∀ (f n : Nat), ∀ c ∈ natDigitsAux f n, c.isDigit = true
  | 0, _, _, hc => by simp [natDigitsAux] at hc
  | f + 1, n, c, hc => by
    simp only [natDigitsAux] at hc
    by_cases hn : n < 10
    · rw [if_pos hn] at hc
      simp at hc
      exact hc ▸ digitChar_isDigit n hn
    · rw [if_neg hn] at hc
      simp only [List.mem_append, List.mem_singleton] at hc
      rcases hc with hc | hc
      · exact natDigitsAux_digits f (n / 10) c hc
      · exact hc ▸ digitChar_isDigit (n % 10) (by omega)

/-- The digit printer emits at least one character when given fuel. -/
theorem natDigitsAux_ne_nil (f n : Nat) : natDigitsAux (f + 1) n ≠ [] := by
  simp only [natDigitsAux]
  split_ifs <;> simp

/-- Folding the digit accumulator over the printed digits of `n` recovers
`n`, shifted under the accumulator. -/
theorem foldl_natDigitsAux : ∀ (f n acc : Nat), n ≤ f →
    List.foldl (fun a c => a * 10 + (c.toNat - 48)) acc (natDigitsAux (f + 1) n) =
      acc * 10 ^ (natDigitsAux (f + 1) n).length + n
  | 0, n, acc, hn => by
    have h0 : n = 0 := by omega
    subst h0
    show List.foldl _ acc [digitChar 0] = acc * 10 ^ [digitChar 0].length + 0
    simp [digitChar_sub 0 (by omega)]
  | f + 1, n, acc, hn => by
    by_cases h10 : n < 10
    · show List.foldl _ acc (if n < 10 then [digitChar n] else _) =
        acc * 10 ^ (if n < 10 then [digitChar n] else _).length + n
      rw [if_pos h10]
      simp [digitChar_sub n h10]
    · have IH := foldl_natDigitsAux f (n / 10) acc (by omega)
      show List.foldl _ acc (if n < 10 then _ else
          natDigitsAux (f + 1) (n / 10) ++ [digitChar (n % 10)]) =
        acc * 10 ^ (if n < 10 then _ else
          natDigitsAux (f + 1) (n / 10) ++ [digitChar (n % 10)]).length + n
      rw [if_neg h10]
      rw [List.foldl_append, IH]
      simp only [List.foldl_cons, List.foldl_nil, List.length_append, List.length_singleton]
      rw [digitChar_sub (n % 10) (by omega), pow_succ, ← mul_assoc, Nat.add_mul]
      omega

/-- The accumulator parser runs through a block of digits. -/
theorem parseNatAux_append : ∀ (ds : Str) (acc : Nat) (rest : Str),
    (∀ c ∈ ds, c.isDigit = true) →
    parseNatAux acc (ds ++ rest) =
      parseNatAux (List.foldl (fun a c => a * 10 + (c.toNat - 48)) acc ds) rest
  | [], _, _, _ => rfl
  | d :: ds', acc, rest, h => by
    have hd : d.isDigit = true := h d (List.mem_cons_self d ds')
    simp only [List.cons_append, parseNatAux, if_pos hd, List.foldl_cons]
    exact parseNatAux_append ds' _ rest (fun c hc => h c (List.mem_cons_of_mem d hc))

/-- The accumulator parser stops at a non-digit. -/
theorem parseNatAux_stop : ∀ (rest : Str) (acc : Nat), nonDigitHead rest →
    parseNatAux acc rest = (acc, rest)
  | [], _, _ => rfl
  | c :: rest', acc, h => by
    have hc : c.isDigit = false := h
    simp [parseNatAux, hc]

/-- Parsing the printed decimal digits of `n`, followed by a non-digit,
returns `n` and the tail. -/
theorem parseNat_natDigits (n : Nat) (rest : Str) (h : nonDigitHead rest) :
    parseNat (natDigits n ++ rest) = some (n, rest) := by
  obtain ⟨d0, ds, heq⟩ : ∃ d0 ds, natDigitsAux (n + 1) n = d0 :: ds := by
    cases hne : natDigitsAux (n + 1) n with
    | nil => exact absurd hne (natDigitsAux_ne_nil n n)
    | cons a l => exact ⟨a, l, rfl⟩
  have hdig : ∀ c ∈ d0 :: ds, c.isDigit = true := by
    rw [← heq]; exact natDigitsAux_digits (n + 1) n
  have hd0 : d0.isDigit = true := hdig d0 (List.mem_cons_self d0 ds)
  rw [natDigits, heq]
  simp only [List.cons_append, parseNat, if_pos hd0]
  rw [parseNatAux_append ds _ rest (fun c hc => hdig c (List.mem_cons_of_mem d0 hc))]
  rw [parseNatAux_stop rest _ h]
  have hfold := foldl_natDigitsAux n n 0 le_rfl
  rw [heq] at hfold
  simp only [List.foldl_cons, Nat.zero_mul, Nat.zero_add] at hfold
  rw [hfold]

/-- Hex digits round-trip through the printer for values below 16. -/
theorem hexVal_hexDigitChar : ∀ m, m < 16 → hexVal (hexDigitChar m) = some m := by decide

/-- `hexVal` of the zero digit. -/
theorem hexVal_zero : hexVal '0' = some 0 := by decide

/-- The escape of one character is non-empty. -/
theorem jsonEscapeChar_length (c : Char) : 1 ≤ (jsonEscapeChar c).length := by
  simp only [jsonEscapeChar]
  split_ifs <;> simp

/-- Evaluation of `unescapeOne` on a `\u00XX` escape with two trailing
hex digits. -/
theorem unescapeOne_u (h1 h2 : Char) (v1 v2 : Nat) (r : Str)
    (e1 : hexVal h1 = some v1) (e2 : hexVal h2 = some v2) :
    unescapeOne ('u' :: '0' :: '0' :: h1 :: h2 :: r) =
      some (Char.ofNat (((0 * 16 + 0) * 16 + v1) * 16 + v2), r) := by
  simp [unescapeOne, unescapeHex, hexVal_zero, e1, e2]

/-- The fuelled string-body parser inverts the JSON escaper, consumes the
closing quote and leaves the tail, given enough fuel. -/
theorem parseJsonStringBodyAux_escape : ∀ (s rest : Str) (fuel : Nat),
    (jsonEscape s).length + 1 ≤ fuel →
    parseJsonStringBodyAux fuel (jsonEscape s ++ '"' :: rest) = some (s, rest)
  | [], rest, fuel, hf => by
    obtain ⟨f, rfl⟩ : ∃ f, fuel = f + 1 := ⟨fuel - 1, by omega⟩
    show parseJsonStringBodyAux (f + 1) ('"' :: rest) = some ([], rest)
    simp [parseJsonStringBodyAux]
  | c :: s', rest, fuel, hf => by
    have hlen : (jsonEscapeChar c).length + (jsonEscape s').length + 1 ≤ fuel := by
      have hesc : jsonEscape (c :: s') = jsonEscapeChar c ++ jsonEscape s' := rfl
      rw [hesc, List.length_append] at hf
      omega
    have hcl := jsonEscapeChar_length c
    obtain ⟨f, rfl⟩ : ∃ f, fuel = f + 1 := ⟨fuel - 1, by omega⟩
    have IH := parseJsonStringBodyAux_escape s' rest f (by omega)
    show parseJsonStringBodyAux (f + 1) ((jsonEscapeChar c ++ jsonEscape s') ++ '"' :: rest) =
      some (c :: s', rest)
    rw [List.append_assoc]
    simp only [jsonEscapeChar]
    by_cases hq : c = '"'
    · rw [if_pos hq]
      subst hq
      show parseJsonStringBodyAux (f + 1)
        ('\\' :: '"' :: (jsonEscape s' ++ '"' :: rest)) = some ('"' :: s', rest)
      simp only [parseJsonStringBodyAux, if_true, unescapeOne, Option.some_bind]
      simp [mapConsC, IH]
    · rw [if_neg hq]
      by_cases hb : c = '\\'
      · rw [if_pos hb]
        subst hb
        show parseJsonStringBodyAux (f + 1)
          ('\\' :: '\\' :: (jsonEscape s' ++ '"' :: rest)) = some ('\\' :: s', rest)
        simp only [parseJsonStringBodyAux, if_true, unescapeOne, Option.some_bind]
        simp [mapConsC, IH]
      · rw [if_neg hb]
        by_cases h8 : c.toNat = 8
        · rw [if_pos h8]
          have hc8 : c = Char.ofNat 8 := by rw [← Char.ofNat_toNat c, h8]
          subst hc8
          show parseJsonStringBodyAux (f + 1)
            ('\\' :: 'b' :: (jsonEscape s' ++ '"' :: rest)) = some (Char.ofNat 8 :: s', rest)
          simp only [parseJsonStringBodyAux, if_true, unescapeOne, Option.some_bind]
          simp [mapConsC, IH]
        · rw [if_neg h8]
          by_cases h9 : c.toNat = 9
          · rw [if_pos h9]
            have hc9 : c = Char.ofNat 9 := by rw [← Char.ofNat_toNat c, h9]
            subst hc9
            show parseJsonStringBodyAux (f + 1)
              ('\\' :: 't' :: (jsonEscape s' ++ '"' :: rest)) = some (Char.ofNat 9 :: s', rest)
            simp only [parseJsonStringBodyAux, if_true, unescapeOne, Option.some_bind]
            simp [mapConsC, IH]
          · rw [if_neg h9]
            by_cases h10 : c.toNat = 10
            · rw [if_pos h10]
              have hc10 : c = Char.ofNat 10 := by rw [← Char.ofNat_toNat c, h10]
              subst hc10
              show parseJsonStringBodyAux (f + 1)
                ('\\' :: 'n' :: (jsonEscape s' ++ '"' :: rest)) = some (Char.ofNat 10 :: s', rest)
              simp only [parseJsonStringBodyAux, if_true, unescapeOne, Option.some_bind]
              simp [mapConsC, IH]
            · rw [if_neg h10]
              by_cases h12 : c.toNat = 12
              · rw [if_pos h12]
                have hc12 : c = Char.ofNat 12 := by rw [← Char.ofNat_toNat c, h12]
                subst hc12
                show parseJsonStringBodyAux (f + 1)
                  ('\\' :: 'f' :: (jsonEscape s' ++ '"' :: rest)) =
                  some (Char.ofNat 12 :: s', rest)
                simp only [parseJsonStringBodyAux, if_true, unescapeOne, Option.some_bind]
                simp [mapConsC, IH]
              · rw [if_neg h12]
                by_cases h13 : c.toNat = 13
                · rw [if_pos h13]
                  have hc13 : c = Char.ofNat 13 := by rw [← Char.ofNat_toNat c, h13]
                  subst hc13
                  show parseJsonStringBodyAux (f + 1)
                    ('\\' :: 'r' :: (jsonEscape s' ++ '"' :: rest)) =
                    some (Char.ofNat 13 :: s', rest)
                  simp only [parseJsonStringBodyAux, if_true, unescapeOne, Option.some_bind]
                  simp [mapConsC, IH]
                · rw [if_neg h13]
                  by_cases hctl : c.toNat < 32
                  · rw [if_pos hctl]
                    have hu := unescapeOne_u (hexDigitChar (c.toNat / 16))
                      (hexDigitChar (c.toNat % 16)) (c.toNat / 16) (c.toNat % 16)
                      (jsonEscape s' ++ '"' :: rest)
                      (hexVal_hexDigitChar (c.toNat / 16) (by omega))
                      (hexVal_hexDigitChar (c.toNat % 16) (by omega))
                    have hct : ((0 * 16 + 0) * 16 + c.toNat / 16) * 16 + c.toNat % 16 =
                        c.toNat := by omega
                    rw [hct, Char.ofNat_toNat] at hu
                    show parseJsonStringBodyAux (f + 1)
                      ('\\' :: 'u' :: '0' :: '0' :: hexDigitChar (c.toNat / 16) ::
                        hexDigitChar (c.toNat % 16) :: (jsonEscape s' ++ '"' :: rest)) =
                      some (c :: s', rest)
                    simp only [parseJsonStringBodyAux, if_true, hu, Option.some_bind]
                    simp [mapConsC, IH]
                  · rw [if_neg hctl]
                    show parseJsonStringBodyAux (f + 1)
                      (c :: (jsonEscape s' ++ '"' :: rest)) = some (c :: s', rest)
                    simp only [parseJsonStringBodyAux, if_neg hq, if_neg hb]
                    simp [mapConsC, IH]

/-- The string-body parser inverts the JSON escaper. -/
theorem parseJsonStringBody_escape (s rest : Str) :
    parseJsonStringBody (jsonEscape s ++ '"' :: rest) = some (s, rest) := by
  apply parseJsonStringBodyAux_escape
  simp [parseJsonStringBody, List.length_append]

/-- `takeLit` strips an exact literal prefix. -/
theorem takeLit_append : ∀ (p rest : Str), takeLit p (p ++ rest) = some rest
  | [], rest => by
    show takeLit [] rest = some rest
    simp [takeLit]
  | c :: p', rest => by
    simp only [List.cons_append, takeLit, if_pos rfl]
    exact takeLit_append p' rest

/-- `takeLit` through an explicit head character followed by the rest
of the literal. -/
theorem takeLit_cons_append (c : Char) (p rest : Str) :
    takeLit (c :: p) (c :: (p ++ rest)) = some rest := by
  show takeLit (c :: p) ((c :: p) ++ rest) = some rest
  exact takeLit_append (c :: p) rest

/-- `parseNat` on printed digits followed by a comma (the situation inside
the serialized cookie object). -/
theorem parseNat_natDigits_comma (n : Nat) (rest : Str) :
    parseNat (natDigits n ++ ',' :: rest) = some (n, ',' :: rest) :=
  parseNat_natDigits n (',' :: rest) (show ','.isDigit = false by decide)

/-- Parsing the serialized auth-cookie JSON value recovers the session's
access token, refresh token and expiry fields exactly. -/
theorem parseAuthCookieValue_sessionJson (s : Session) :
    parseAuthCookieValue (sessionJson s) =
      some (s.access_token, s.refresh_token, s.expires_in, s.expires_at) := by
  have hq1 : ("\",\"refresh_token\":\"".toList : Str) =
    '"' :: ",\"refresh_token\":\"".toList := rfl
  have hq2 : ("\",\"expires_in\":".toList : Str) = '"' :: ",\"expires_in\":".toList := rfl
  have hq3 : (",\"expires_at\":".toList : Str) = ',' :: "\"expires_at\":".toList := rfl
  have hq4 : (",\"token_type\":\"".toList : Str) = ',' :: "\"token_type\":\"".toList := rfl
  have hq5 : ("\",\"user\":".toList : Str) = '"' :: ",\"user\":".toList := rfl
  have hq6 : ("\x7d".toList : Str) = ['\x7d'] := rfl
  rw [sessionJson, hq1, hq2, hq3, hq4, hq5, hq6, parseAuthCookieValue]
  simp only [List.append_assoc, List.cons_append, List.nil_append]
  simp only [Option.bind_eq_bind, Option.some_bind, takeLit_append,
    parseJsonStringBody_escape]
  rw [parseNat_natDigits_comma, Option.some_bind]
  rw [show (",\"expires_at\":".toList : Str) = ',' :: "\"expires_at\":".toList from rfl,
    takeLit_cons_append, Option.some_bind]
  rw [parseNat_natDigits_comma, Option.some_bind]
  rw [show (",\"token_type\":\"".toList : Str) = ',' :: "\"token_type\":\"".toList from rfl,
    takeLit_cons_append, Option.some_bind]
  rw [parseJsonStringBody_escape, Option.some_bind]
  rw [takeLit_append, Option.some_bind]
  simp [List.reverse_append]

/-! ## Claim theorems -/

/-- C1 (counterexample): the claim's if-and-only-if is false on the code.
With the single plain allow-list entry `mydomain.com`, the URL
`https://sub.mydomain.com/` parses with hostname `sub.mydomain.com`;
`isValidRedirectUrl` accepts it, yet the claim's condition (exact equality,
wildcard entries aside) does not hold for that hostname. -/
theorem C1_counterexample :
    hostnameOf "https://sub.mydomain.com/".toList = some "sub.mydomain.com".toList ∧
    isValidRedirectUrl envA "https://sub.mydomain.com/".toList = true ∧
    specExactOrWildcard (trimmedDomains envA) "sub.mydomain.com".toList = false := by
  refine ⟨by decide, by decide, by decide⟩

/-- C1 (amended): for every configuration and every URL that parses,
`isValidRedirectUrl` accepts it iff the hostname exactly equals an
allow-list entry or ends with `.entry` — subdomain suffix matching (with a
mandatory `.` delimiter, so no partial/prefix matching) applies to every
entry, and a wildcard entry `*.base` matches `base` itself or any `.base`
suffix. -/
theorem C1_amended (env : Env) (url host : Str) (h : hostnameOf url = some host) :
    isValidRedirectUrl env url = true ↔ amendedAllowed (trimmedDomains env) host := by
  simp only [isValidRedirectUrl, h]
  rw [List.any_eq_true]
  unfold amendedAllowed
  refine exists_congr (fun d => and_congr_right (fun _ => ?_))
  unfold domainMatches
  by_cases hw : "*.".toList.isPrefixOf d
  · rw [if_pos hw, if_pos hw]
    simp [Bool.or_eq_true, decide_eq_true_eq]
  · rw [if_neg hw, if_neg hw]
    simp [Bool.or_eq_true, decide_eq_true_eq]

/-- C1 (witness): the amended equivalence applied to
`https://evilmydomain.com/`, whose hostname is rejected on the entry
`mydomain.com` because the `.` delimiter is required before the suffix. -/
theorem C1_amended_witness :
    (isValidRedirectUrl envA "https://evilmydomain.com/".toList = true ↔
      amendedAllowed (trimmedDomains envA) "evilmydomain.com".toList) ∧
    isValidRedirectUrl envA "https://evilmydomain.com/".toList = false :=
  ⟨C1_amended envA "https://evilmydomain.com/".toList "evilmydomain.com".toList (by decide),
   by decide⟩

/-- C2: an input string that fails to parse as a URL is rejected by
`isValidRedirectUrl`; parse failure (the `URL` constructor throwing) is
caught and resolved as `false`, never propagated, and the function is a
total function of its string argument. -/
theorem C2_malformed_rejected (env : Env) (url : Str) (h : hostnameOf url = none) :
    isValidRedirectUrl env url = false := by
  simp [isValidRedirectUrl, h]

/-- C2 (witness): the malformed input `not a url` is rejected. -/
theorem C2_malformed_rejected_witness :
    hostnameOf "not a url".toList = none ∧
    isValidRedirectUrl envA "not a url".toList = false :=
  ⟨by decide, C2_malformed_rejected envA "not a url".toList (by decide)⟩

/-- C7: the clearing directive produced by `clearAuthCookie` carries the
same cookie name, path and domain as the issuing directive produced by
`setAuthCookie` for any session, with empty value and max-age zero, and
clearing is deterministic (two calls produce the same directive). -/
theorem C7_clear_matches_issue (env : Env) (s : Session) :
    (clearAuthCookieDirective env).name = (setAuthCookieDirective env s).name ∧
    (clearAuthCookieDirective env).path = (setAuthCookieDirective env s).path ∧
    (clearAuthCookieDirective env).domain = (setAuthCookieDirective env s).domain ∧
    (clearAuthCookieDirective env).value = [] ∧
    (clearAuthCookieDirective env).maxAge = some 0 ∧
    clearAuthCookieDirective env = clearAuthCookieDirective env :=
  ⟨rfl, rfl, rfl, rfl, rfl, rfl⟩

/-- C9: the cookie issued for a session is named
`sb-<project-ref>-auth-token`, its value is the serialized JSON object
`{access_token, refresh_token, expires_in, expires_at, token_type, user}`,
and parsing that value reconstructs the session's access token, refresh
token and expiry fields exactly. -/
theorem C9_cookie_roundtrip (env : Env) (s : Session) :
    (setAuthCookieDirective env s).name =
      "sb-".toList ++ projectRef env ++ "-auth-token".toList ∧
    (setAuthCookieDirective env s).value = sessionJson s ∧
    parseAuthCookieValue (setAuthCookieDirective env s).value =
      some (s.access_token, s.refresh_token, s.expires_in, s.expires_at) :=
  ⟨rfl, rfl, parseAuthCookieValue_sessionJson s⟩

/-- C3: the gateway fails closed.  A thrown identity-provider exception
makes `validateSession` and `refreshSession` return `none`; the ForwardAuth
`catch` block always answers with a `302` redirect to the login URL; and a
`200` response can only arise from a validated or successfully refreshed
session — under no error condition does the handler answer `200`. -/
theorem C3_fail_closed :
    (∀ e : Str, validateSession (Except.error e) = none) ∧
    (∀ e : Str, refreshSession (Except.error e) = none) ∧
    (∀ (env : Env) (req : ForwardReq) (r : Resp), forwardAuthCatch env req = Except.ok r →
      r.status = 302 ∧ r.location = generateLoginUrl env (catchOriginalUrl req)) ∧
    (∀ (env : Env) (req : ForwardReq) (getRes refreshRes : Except Str ProviderData) (r : Resp),
      forwardAuthGET env req getRes refreshRes = Except.ok r → r.status = 200 →
      (∃ s, validateSession getRes = some s) ∨ (∃ s, refreshSession refreshRes = some s)) := by
  refine ⟨fun e => rfl, fun e => rfl, ?_, ?_⟩
  · intro env req r h
    unfold forwardAuthCatch at h
    cases hg : generateLoginUrl env (catchOriginalUrl req) with
    | none => rw [hg] at h; exact absurd h (by simp)
    | some u =>
      rw [hg] at h
      injection h with h'
      subst h'
      exact ⟨rfl, rfl⟩
  · intro env req getRes refreshRes r hok h200
    cases hv : validateSession getRes with
    | some s => exact Or.inl ⟨s, rfl⟩
    | none =>
      cases hr : refreshSession refreshRes with
      | some s => exact Or.inr ⟨s, rfl⟩
      | none =>
        exfalso
        unfold forwardAuthGET forwardAuthTry at hok
        rw [hv, hr] at hok
        dsimp only at hok
        have hattempt : (match req.refreshTokenCookie with
            | some rt => if rt.isEmpty then none
                else (none : Option Resp)
            | none => none) = (none : Option Resp) := by
          cases req.refreshTokenCookie with
          | none => rfl
          | some rt => by_cases hrt : rt.isEmpty <;> simp [hrt]
        rw [hattempt] at hok
        dsimp only at hok
        cases hg : generateLoginUrl env (originalUrlOf req) with
        | some u =>
          rw [hg] at hok
          dsimp only at hok
          injection hok with h'
          rw [← h'] at h200
          exact absurd h200 (by simp)
        | none =>
          rw [hg] at hok
          dsimp only at hok
          unfold forwardAuthCatch at hok
          cases hg2 : generateLoginUrl env (catchOriginalUrl req) with
          | some u =>
            rw [hg2] at hok
            injection hok with h'
            rw [← h'] at h200
            exact absurd h200 (by simp)
          | none =>
            rw [hg2] at hok
            exact absurd hok (by simp)

/-- C3 (witness): provider exceptions map to `none`, the `catch` block's
response for a concrete request is a `302` toward the login URL, and a
concrete `200` answer exhibits its validated session. -/
theorem C3_fail_closed_witness :
    validateSession (Except.error "boom".toList) = none ∧
    refreshSession (Except.error "boom".toList) = none ∧
    (catchRespA.status = 302 ∧
      catchRespA.location = generateLoginUrl envA (catchOriginalUrl fwdReqA)) :=
  ⟨C3_fail_closed.1 "boom".toList, C3_fail_closed.2.1 "boom".toList,
   C3_fail_closed.2.2.1 envA fwdReqA catchRespA rfl⟩

/-- C6: the logout handler applies the auth-cookie-clearing directive on
every exit path — the normal path, the path where the remote sign-out call
returns an error, and the catch path where it throws. -/
theorem C6_logout_always_clears (env : Env) (req : LogoutReq)
    (signOut : Except Str (Option Str)) (r : Resp)
    (h : logoutPOST env req signOut = Except.ok r) :
    clearAuthCookieDirective env ∈ r.cookies := by
  unfold logoutPOST logoutTry at h
  cases signOut with
  | ok errOpt =>
    dsimp only at h
    cases hres : resolveUrl (jsOr req.redirectParam "/login".toList) req.url with
    | some u =>
      rw [hres] at h
      dsimp only at h
      injection h with h'
      subst h'
      simp [clearAuthCookie]
    | none =>
      rw [hres] at h
      dsimp only at h
      cases hres2 : resolveUrl "/login".toList req.url with
      | some u =>
        rw [hres2] at h
        injection h with h'
        subst h'
        simp [clearAuthCookie]
      | none =>
        rw [hres2] at h
        exact absurd h (by simp)
  | error e =>
    dsimp only at h
    cases hres2 : resolveUrl "/login".toList req.url with
    | some u =>
      rw [hres2] at h
      injection h with h'
      subst h'
      simp [clearAuthCookie]
    | none =>
      rw [hres2] at h
      exact absurd h (by simp)

/-- C6 (witness): even when the sign-out call throws, the concrete logout
response carries the clearing directive. -/
theorem C6_logout_always_clears_witness :
    clearAuthCookieDirective envA ∈ logoutRespA.cookies :=
  C6_logout_always_clears envA logoutReqA (Except.error "boom".toList) logoutRespA rfl

/-- The `X-User-Name` value equals the base64 encoding of the UTF-8 bytes
of the display name in every case (the source's empty-name special case
coincides with encoding the empty byte string). -/
theorem encodedUserName_eq (u : User) :
    encodedUserName u = b64EncodeBytes (utf8Encode (userNameOf u)) := by
  cases h : userNameOf u with
  | nil => simp [encodedUserName, h, utf8Encode, b64EncodeBytes]
  | cons c rest => simp [encodedUserName, h]

/-- An allowed URL has a hostname. -/
theorem isValid_hostname_isSome (env : Env) (url : Str)
    (h : isValidRedirectUrl env url = true) : (hostnameOf url).isSome = true := by
  cases hh : hostnameOf url with
  | none => rw [isValidRedirectUrl, hh] at h; exact absurd h (by simp)
  | some host => simp

/-- C4: a ForwardAuth request with no valid session and no usable refresh
credential is answered `302`, with `Location` the login-page origin plus
path `/login` and a `redirect` query parameter carrying the original
guarded URL; that original URL comes from the `x-forwarded-*` headers when
`x-forwarded-host` is present and truthy, and falls back to the request's
own URL otherwise. -/
theorem C4_denied_redirects_to_login (env : Env) (req : ForwardReq)
    (getRes refreshRes : Except Str ProviderData) (u : Str)
    (hv : validateSession getRes = none)
    (hrf : optTruthy req.refreshTokenCookie = false ∨ refreshSession refreshRes = none)
    (hg : generateLoginUrl env (originalUrlOf req) = some u) :
    (∃ r, forwardAuthGET env req getRes refreshRes = Except.ok r ∧ r.status = 302 ∧
      r.location = some u) ∧
    (∃ o, originOf (jsOr env.appUrl "http://localhost:3000".toList) = some o ∧
      u = o ++ "/login?redirect=".toList ++ formEncode (originalUrlOf req)) ∧
    (∀ h, req.xForwardedHost = some h → h.isEmpty = false →
      originalUrlOf req = jsOr req.xForwardedProto "https".toList ++ "://".toList ++ h ++
        jsOr req.xForwardedUri "/".toList) ∧
    (req.xForwardedHost = none → originalUrlOf req = req.url) := by
  have htry : forwardAuthTry env req getRes refreshRes =
      Except.ok { status := 302, location := some u } := by
    unfold forwardAuthTry
    rw [hv]
    dsimp only
    cases hc : req.refreshTokenCookie with
    | none =>
      dsimp only
      rw [hg]
    | some rt =>
      by_cases hrt : rt.isEmpty
      · simp [hrt, hg]
      · have hre : refreshSession refreshRes = none := by
          rcases hrf with hrf | hrf
          · rw [hc] at hrf
            simp [optTruthy] at hrf
            rw [hrf] at hrt
            exact absurd rfl hrt
          · exact hrf
        simp [hrt, hre, hg]
  refine ⟨⟨{ status := 302, location := some u }, ?_, rfl, rfl⟩, ?_, ?_, ?_⟩
  · unfold forwardAuthGET
    rw [htry]
  · unfold generateLoginUrl at hg
    rcases Option.map_eq_some'.mp hg with ⟨o, ho, hu⟩
    exact ⟨o, ho, hu.symm⟩
  · intro h hh hne
    simp [originalUrlOf, hh, hne]
  · intro hnone
    simp [originalUrlOf, hnone]

/-- C4 (witness): a concrete request with forwarding headers and no
credentials is answered `302` toward
`/login?redirect=<form-encoded original URL>`. -/
theorem C4_denied_redirects_to_login_witness :
    ∃ r, forwardAuthGET envA fwdReqA (Except.ok ⟨none, none⟩) (Except.ok ⟨none, none⟩) =
      Except.ok r ∧ r.status = 302 ∧
      r.location =
        some "http://localhost:3000/login?redirect=https%3A%2F%2Fapp.mydomain.com%2Fpanel".toList :=
  (C4_denied_redirects_to_login envA fwdReqA (Except.ok ⟨none, none⟩) (Except.ok ⟨none, none⟩)
    "http://localhost:3000/login?redirect=https%3A%2F%2Fapp.mydomain.com%2Fpanel".toList
    rfl (Or.inl rfl) (by decide)).1

/-- C8: on every authenticated ForwardAuth response the `X-User-Name`
header value is the base64 encoding of the UTF-8 bytes of the display
name, the `X-User-Name-Encoding` header declares `base64`, and decoding as
declared (base64, then UTF-8) returns the original display name. -/
theorem C8_identity_header_roundtrip (env : Env) (req : ForwardReq)
    (getRes refreshRes : Except Str ProviderData) (s : Session)
    (hv : validateSession getRes = some s) :
    ∃ r, forwardAuthGET env req getRes refreshRes = Except.ok r ∧
      ("X-User-Name".toList, b64EncodeBytes (utf8Encode (userNameOf s.user))) ∈ r.headers ∧
      ("X-User-Name-Encoding".toList, "base64".toList) ∈ r.headers ∧
      b64DecodeChars (b64EncodeBytes (utf8Encode (userNameOf s.user))) =
        some (utf8Encode (userNameOf s.user)) ∧
      utf8Decode (utf8Encode (userNameOf s.user)) = some (userNameOf s.user) := by
  refine ⟨{ status := 200, headers := authHeaders s.user ++ cookiePassthrough req }, ?_, ?_, ?_,
    b64_decode_encode _ (utf8Encode_lt _), utf8_decode_encode _⟩
  · unfold forwardAuthGET forwardAuthTry
    rw [hv]
  · exact List.mem_append_left _ (by simp [authHeaders, encodedUserName_eq s.user])
  · exact List.mem_append_left _ (by simp [authHeaders])

/-- C8 (witness): for a session whose display name is `张三`, the concrete
authenticated response carries the base64-encoded name and the declared
encoding, and decoding returns `张三`. -/
theorem C8_identity_header_roundtrip_witness :
    ∃ r, forwardAuthGET envA fwdReqA (Except.ok ⟨some sessionA, none⟩)
        (Except.ok ⟨none, none⟩) = Except.ok r ∧
      ("X-User-Name".toList, b64EncodeBytes (utf8Encode (userNameOf sessionA.user))) ∈
        r.headers ∧
      ("X-User-Name-Encoding".toList, "base64".toList) ∈ r.headers ∧
      b64DecodeChars (b64EncodeBytes (utf8Encode (userNameOf sessionA.user))) =
        some (utf8Encode (userNameOf sessionA.user)) ∧
      utf8Decode (utf8Encode (userNameOf sessionA.user)) = some (userNameOf sessionA.user) :=
  C8_identity_header_roundtrip envA fwdReqA (Except.ok ⟨some sessionA, none⟩)
    (Except.ok ⟨none, none⟩) sessionA rfl

/-- C5 (counterexample): the claim says that when the `redirect` query
parameter is absent the callback redirects to the fixed default landing
page, but a request with no `redirect` parameter and an allow-listed
`state` parameter is redirected to the `state` URL instead of the
`/dashboard` default. -/
theorem C5_counterexample :
    cbReqState.redirectParam = none ∧
    locOf (callbackGET envA cbReqState (Except.ok ⟨some sessionA, none⟩)) =
      some "https://app.mydomain.com/home".toList ∧
    resolveUrl "/dashboard".toList (jsOr envA.appUrl "http://localhost:3000".toList) =
      some "http://localhost:3000/dashboard".toList ∧
    some "https://app.mydomain.com/home".toList ≠
      some "http://localhost:3000/dashboard".toList :=
  ⟨rfl, by decide, by decide, by decide⟩

/-- C5 (amended): on a successful code exchange, the requested target is
the `redirect` query parameter — or, when `redirect` is absent or empty,
the `state` query parameter in its place — and the response redirects to
that target exactly when it is present, non-empty, and accepted by
`isValidRedirectUrl`, falling back to the `/dashboard` default otherwise;
in both cases the redirect response carries the issued auth cookie. -/
theorem C5_success_redirect_policy (env : Env) (req : CallbackReq) (d : ProviderData)
    (s : Session) (o : Str)
    (hcode : optTruthy req.codeParam = true)
    (herr : d.error = none) (hsess : d.session = some s)
    (ho : originOf (jsOr env.appUrl "http://localhost:3000".toList) = some o) :
    ∃ r, callbackGET env req (Except.ok d) = Except.ok r ∧
      setAuthCookieDirective env s ∈ r.cookies ∧
      r.location = resolveUrl (callbackTarget env req)
        (jsOr env.appUrl "http://localhost:3000".toList) ∧
      callbackTarget env req = (match redirectToOf req with
        | some v => if !v.isEmpty && isValidRedirectUrl env v then v else "/dashboard".toList
        | none => "/dashboard".toList) ∧
      redirectToOf req = (match req.redirectParam with
        | some v => if v.isEmpty then req.stateParam else some v
        | none => req.stateParam) := by
  obtain ⟨u, hu⟩ : ∃ u, resolveUrl (callbackTarget env req)
      (jsOr env.appUrl "http://localhost:3000".toList) = some u := by
    unfold resolveUrl
    by_cases habs : (hostnameOf (callbackTarget env req)).isSome
    · rw [if_pos habs]
      exact ⟨_, rfl⟩
    · rw [if_neg habs, ho]
      exact ⟨_, rfl⟩
  have htry : callbackTry env req (Except.ok d) =
      Except.ok (setAuthCookie env s { status := 307, location := some u }) := by
    simp only [callbackTry, hcode, Bool.not_true, herr, hsess, hu]
    rw [if_neg (by decide)]
  refine ⟨setAuthCookie env s { status := 307, location := some u }, ?_, ?_, ?_, rfl, rfl⟩
  · unfold callbackGET
    rw [htry]
  · simp [setAuthCookie]
  · show some u = resolveUrl (callbackTarget env req)
      (jsOr env.appUrl "http://localhost:3000".toList)
    rw [hu]

/-- C5 (witness): the amended statement at a concrete callback whose
`redirect` parameter is `https://evil.com` with `evil.com` not
allow-listed; the chosen target is the `/dashboard` default. -/
theorem C5_success_redirect_policy_witness :
    (∃ r, callbackGET envA cbReqEvil (Except.ok ⟨some sessionA, none⟩) = Except.ok r ∧
      setAuthCookieDirective envA sessionA ∈ r.cookies ∧
      r.location = resolveUrl (callbackTarget envA cbReqEvil)
        (jsOr envA.appUrl "http://localhost:3000".toList) ∧
      callbackTarget envA cbReqEvil = (match redirectToOf cbReqEvil with
        | some v => if !v.isEmpty && isValidRedirectUrl envA v then v
            else "/dashboard".toList
        | none => "/dashboard".toList) ∧
      redirectToOf cbReqEvil = (match cbReqEvil.redirectParam with
        | some v => if v.isEmpty then cbReqEvil.stateParam else some v
        | none => cbReqEvil.stateParam)) ∧
    callbackTarget envA cbReqEvil = "/dashboard".toList :=
  ⟨C5_success_redirect_policy envA cbReqEvil ⟨some sessionA, none⟩ sessionA
    "http://localhost:3000".toList rfl rfl rfl (by decide), by decide⟩

/-- C10: when the `redirect` query parameter is absent (or empty), the
`state` query parameter takes its place under the same allow-list
validation: a successful callback with an allow-listed non-empty `state`
redirects to that `state` URL. -/
theorem C10_state_fallback (env : Env) (req : CallbackReq) (d : ProviderData)
    (s : Session) (st : Str)
    (hcode : optTruthy req.codeParam = true)
    (hredir : req.redirectParam = none ∨ req.redirectParam = some [])
    (hstate : req.stateParam = some st)
    (hne : st.isEmpty = false)
    (hvalid : isValidRedirectUrl env st = true)
    (herr : d.error = none) (hsess : d.session = some s) :
    ∃ r, callbackGET env req (Except.ok d) = Except.ok r ∧ r.location = some st := by
  have hrt : redirectToOf req = some st := by
    unfold redirectToOf
    rcases hredir with h | h <;> rw [h] <;> simp [hstate]
  have htgt : callbackTarget env req = st := by
    unfold callbackTarget
    rw [hrt]
    simp [hne, hvalid]
  have habs : (hostnameOf st).isSome = true := by
    cases hh : hostnameOf st with
    | none => rw [isValidRedirectUrl, hh] at hvalid; exact absurd hvalid (by simp)
    | some host => simp
  have hres : resolveUrl (callbackTarget env req)
      (jsOr env.appUrl "http://localhost:3000".toList) = some st := by
    rw [htgt]
    unfold resolveUrl
    rw [if_pos habs]
  have htry : callbackTry env req (Except.ok d) =
      Except.ok (setAuthCookie env s { status := 307, location := some st }) := by
    simp only [callbackTry, hcode, Bool.not_true, herr, hsess, hres]
    rw [if_neg (by decide)]
  refine ⟨setAuthCookie env s { status := 307, location := some st }, ?_, rfl⟩
  unfold callbackGET
  rw [htry]

/-- C10 (witness): a concrete callback with `code` present, no `redirect`
parameter, and an allow-listed `state` URL redirects to the `state` URL. -/
theorem C10_state_fallback_witness :
    ∃ r, callbackGET envA cbReqState (Except.ok ⟨some sessionA, none⟩) = Except.ok r ∧
      r.location = some "https://app.mydomain.com/home".toList :=
  C10_state_fallback envA cbReqState ⟨some sessionA, none⟩ sessionA
    "https://app.mydomain.com/home".toList rfl (Or.inl rfl) rfl rfl (by decide) rfl rfl
